import Mathlib

/-!
Verification of the Liquidity_hunt short-squeeze monitor.

Shallow embedding of the collector (data_collector.py), analyzer
(analyzer.py) and alert governor (main.py) of the repository, with the
configuration defaults of config.py.  Floats are modelled as rationals,
pandas DataFrames as lists of rows (a missing/NaN cell as `Option.none`),
dicts as association lists, and the HTTP transport of `fetch_with_retry`
as a transcript function from attempt number to that attempt's outcome.
-/

namespace LiquidityHunt

/-- Strategy thresholds (config.py `Thresholds`), fields carrying the
source's default values (the env-file overrides are arbitrary, so theorems
quantify over a `Thresholds` value where the claim is not about defaults). -/
structure Thresholds where
  min_volume_24h : ℚ := 15000000
  normal_funding_rate : ℚ := -(5/10000)
  normal_oi_ratio : ℚ := 12/10
  strong_funding_rate : ℚ := -(10/10000)
  strong_oi_ratio : ℚ := 2
  oi_short_window : ℕ := 3
  oi_long_window : ℕ := 13
  oi_15m_strong : ℚ := 12/100
  oi_15m_normal : ℚ := 5/100
  oi_1h_strong : ℚ := 30/100
  oi_1h_normal : ℚ := 15/100
  btc_veto_threshold : ℚ := -(1/100)
  btc_veto_enabled : Bool := true
deriving DecidableEq

/-- config.py Thresholds.FUNDING_RATE_EXTREME, also MarketAnalyzer.__init__
`self.funding_threshold = abs(THRESHOLDS.NORMAL_FUNDING_RATE)`. -/
def Thresholds.funding_threshold (t : Thresholds) : ℚ := |t.normal_funding_rate|

/-- config.py Thresholds.OI_SURGE_RATIO, also MarketAnalyzer.__init__
`self.oi_surge_ratio = THRESHOLDS.NORMAL_OI_RATIO`. -/
def Thresholds.oi_surge_ratio (t : Thresholds) : ℚ := t.normal_oi_ratio

/-- config.py Thresholds.STRONG_FUNDING_THRESHOLD (alias). -/
def Thresholds.strong_funding_threshold (t : Thresholds) : ℚ := t.strong_funding_rate

/-- config.py Thresholds.STRONG_OI_THRESHOLD (alias). -/
def Thresholds.strong_oi_threshold (t : Thresholds) : ℚ := t.strong_oi_ratio

/-- The configuration with every field at its config.py default. -/
def defaultThresholds : Thresholds := {}

/-- One CSV row as the analyzer reads it back (analyzer.py
`load_symbol_data`, already normalised so the trade price is the `price`
column).  A `none` field is a NaN/missing cell, removed by `dropna`. -/
structure RawRow where
  timestamp : ℕ
  price : Option ℚ
  open_interest : Option ℚ
  funding_rate : Option ℚ
deriving DecidableEq

/-- The numeric value of the price cell (its value when present;
the 0 default is only ever read behind an `isSome` guard). -/
def RawRow.priceV (r : RawRow) : ℚ := r.price.getD 0

/-- The numeric value of the open-interest cell. -/
def RawRow.oiV (r : RawRow) : ℚ := r.open_interest.getD 0

/-- The numeric value of the funding-rate cell. -/
def RawRow.frV (r : RawRow) : ℚ := r.funding_rate.getD 0

/-- A row with no NaN in the required columns (analyzer.py `_sanitize_data`
step 1, `df.dropna(subset=required_cols)`). -/
def rowComplete (r : RawRow) : Bool :=
  r.price.isSome && r.open_interest.isSome && r.funding_rate.isSome

/-- pandas `df.drop_duplicates(subset=["timestamp"], keep="last")`:
a row is kept iff no later row carries the same timestamp. -/
def dedup_last_by_timestamp : List RawRow → List RawRow
  | [] => []
  | r :: rest =>
    if rest.any (fun s => s.timestamp == r.timestamp) then dedup_last_by_timestamp rest
    else r :: dedup_last_by_timestamp rest

/-- analyzer.py `MarketAnalyzer._sanitize_data`: drop NaN rows, drop rows
with non-positive price, drop rows with non-positive open interest, then
deduplicate timestamps keeping the last write. -/
def sanitize_data (rows : List RawRow) : List RawRow :=
  dedup_last_by_timestamp
    (((rows.filter rowComplete).filter
        (fun r => decide (0 < r.priceV))).filter
      (fun r => decide (0 < r.oiV)))

/-- Stable insertion of a row into a timestamp-sorted list. -/
def insert_by_timestamp (r : RawRow) : List RawRow → List RawRow
  | [] => [r]
  | x :: xs =>
    if r.timestamp < x.timestamp then r :: x :: xs else x :: insert_by_timestamp r xs

/-- pandas `df.sort_values("timestamp")` (timestamps are unique after
sanitizing, so any sort gives the same sequence). -/
def sort_by_timestamp (l : List RawRow) : List RawRow := l.foldr insert_by_timestamp []

/-- analyzer.py `MarketAnalyzer.load_symbol_data`, after the CSV has been
parsed into rows: `none` for a missing/empty file or an empty sanitized
frame, otherwise the sanitized rows sorted by timestamp. -/
def load_symbol_data (rows : List RawRow) : Option (List RawRow) :=
  if rows.isEmpty then none
  else
    let df := sanitize_data rows
    if df.isEmpty then none else some (sort_by_timestamp df)

/-- Mean of a rational series (`Series.mean`); callers guard non-emptiness. -/
def meanQ (l : List ℚ) : ℚ := l.sum / (l.length : ℚ)

/-- analyzer.py `MarketAnalyzer.calculate_oi_metrics`:
(current_oi, short_ma, long_ma, ratio). -/
def calculate_oi_metrics (t : Thresholds) (df : List RawRow) : ℚ × ℚ × ℚ × ℚ :=
  if df.length < t.oi_short_window then
    let current := ((df.getLast?).map RawRow.oiV).getD 0
    (current, current, current, 1)
  else
    let ois := df.map RawRow.oiV
    let current := (ois.getLast?).getD 0
    let short_ma := meanQ (ois.drop (ois.length - t.oi_short_window))
    let long_ma :=
      if t.oi_long_window ≤ df.length then meanQ (ois.drop (ois.length - t.oi_long_window))
      else meanQ ois
    let ratio := if 0 < long_ma then short_ma / long_ma else 1
    (current, short_ma, long_ma, ratio)

/-- analyzer.py `MarketAnalyzer.calculate_oi_dual_window`:
(oi_change_15m, oi_change_1h, trigger tag).  The 4/13 offsets are the
source's literals (5-minute cadence assumption). -/
def calculate_oi_dual_window (t : Thresholds) (df : List RawRow) : ℚ × ℚ × String :=
  let ois := df.map RawRow.oiV
  let current := (ois.getLast?).getD 0
  let oi_change_15m : ℚ :=
    if 4 ≤ df.length then
      let ago := ois.getD (ois.length - 4) 0
      if 0 < ago then (current - ago) / ago else 0
    else 0
  let oi_change_1h : ℚ :=
    if 13 ≤ df.length then
      let ago := ois.getD (ois.length - 13) 0
      if 0 < ago then (current - ago) / ago else 0
    else 0
  let t15 := decide (t.oi_15m_strong ≤ oi_change_15m) || decide (t.oi_15m_normal ≤ oi_change_15m)
  let t1h := decide (t.oi_1h_strong ≤ oi_change_1h) || decide (t.oi_1h_normal ≤ oi_change_1h)
  let trigger := if t15 && t1h then "both" else if t15 then "15m" else if t1h then "1h" else ""
  (oi_change_15m, oi_change_1h, trigger)

/-- analyzer.py `MarketAnalyzer.check_extreme_funding`. -/
def check_extreme_funding (t : Thresholds) (funding_rate : ℚ) : Bool :=
  decide (t.funding_threshold ≤ |funding_rate|)

/-- analyzer.py `MarketAnalyzer.check_oi_surge`. -/
def check_oi_surge (t : Thresholds) (ratio : ℚ) : Bool :=
  decide (t.oi_surge_ratio ≤ ratio)

/-- analyzer.py `MarketAnalyzer.calculate_signal_strength` (0.003 and 3.0
are the source's literal hard-strong cutoffs). -/
def calculate_signal_strength (is_extreme_funding is_oi_surge : Bool)
    (funding_rate oi_ratio : ℚ) : String :=
  if is_extreme_funding && is_oi_surge then
    if 3/1000 < |funding_rate| ∧ 3 < oi_ratio then "STRONG" else "MODERATE"
  else if is_extreme_funding || is_oi_surge then "WEAK"
  else "NONE"

/-- analyzer.py `MarketAnalyzer._calculate_severity`. -/
def calculate_severity (t : Thresholds)
    (funding_rate oi_ratio oi_change_15m oi_change_1h : ℚ) : String :=
  if funding_rate ≤ t.strong_funding_threshold then "STRONG"
  else if |t.strong_funding_threshold| ≤ funding_rate then "STRONG"
  else if t.oi_15m_strong ≤ oi_change_15m then "STRONG"
  else if t.oi_1h_strong ≤ oi_change_1h then "STRONG"
  else if t.strong_oi_threshold < oi_ratio then "STRONG"
  else "NORMAL"

/-- analyzer.py `MarketAnalyzer.determine_trend_and_advice` (the funding
bounds ±0.0005 are the source's literals). -/
def determine_trend_and_advice (price_change_pct oi_change_pct funding_rate : ℚ) :
    String × String :=
  if price_change_pct ≤ 0 ∧ 0 < oi_change_pct ∧ funding_rate < -(5/10000) then
    ("📉 吸筹蓄力 (空头堆积)", "👀 密切关注 / 埋伏突破")
  else if 0 < price_change_pct ∧ 0 < oi_change_pct ∧ funding_rate < 0 then
    ("🚀 轧空启动 (趋势点火)", "🔫 市价做多 / 顺势进场")
  else if 0 < price_change_pct ∧ oi_change_pct < 0 then
    ("💥 空头踩踏 (高潮派发)", "💰 分批止盈 / 切勿追高")
  else if price_change_pct < 0 ∧ oi_change_pct < 0 then
    ("🩸 多头爆仓", "⛔ 空仓观望 / 远离")
  else if 0 < price_change_pct ∧ 0 < oi_change_pct ∧ 5/10000 < funding_rate then
    ("⚠️ 多头拥挤 (警惕回调)", "🛡️ 谨慎追多 / 收紧止损")
  else ("⚖️ 震荡整理 (方向不明)", "⏳ 等待明确信号")

/-- The live snapshot handed to `analyze_symbol` for a symbol (the entry of
`collect_all_data`'s result; keys read with `.get`, so each is optional). -/
structure CurrentData where
  price : Option ℚ := none
  funding_rate : Option ℚ := none
  price_change_percent : Option ℚ := none
deriving DecidableEq

/-- analyzer.py `SqueezeSignal` (the analysis-result dataclass). -/
structure Signal where
  symbol : String
  timestamp : ℕ
  price : ℚ
  funding_rate : ℚ
  current_oi : ℚ
  oi_short_ma : ℚ
  oi_long_ma : ℚ
  oi_ratio : ℚ
  is_extreme_funding : Bool
  is_oi_surge : Bool
  signal_strength : String
  severity : String := "NORMAL"
  price_change_pct : ℚ := 0
  oi_change_pct : ℚ := 0
  trend : String := ""
  advice : String := ""
  oi_change_15m : ℚ := 0
  oi_change_1h : ℚ := 0
  oi_trigger : String := ""
  btc_change_pct : ℚ := 0
  btc_veto : Bool := false
deriving DecidableEq

/-- The `price` and `funding_rate` that `analyze_symbol` works with: the
last row's values, overridden by the live snapshot when it carries them. -/
def analyze_price_fr (df : List RawRow) (current : Option CurrentData) : ℚ × ℚ :=
  let price0 := ((df.getLast?).map RawRow.priceV).getD 0
  let fr0 := ((df.getLast?).map RawRow.frV).getD 0
  match current with
  | none => (price0, fr0)
  | some c => (c.price.getD price0, c.funding_rate.getD fr0)

/-- The `is_oi_surge` flag after analyzer.py `analyze_symbol`'s dual-window
upgrade (`if is_oi_15m_trigger or is_oi_1h_trigger: is_oi_surge = True`). -/
def analyze_oi_surge (t : Thresholds) (df : List RawRow) : Bool :=
  let m := calculate_oi_metrics t df
  let dw := calculate_oi_dual_window t df
  check_oi_surge t m.2.2.2 || decide (t.oi_15m_normal ≤ dw.1) ||
    decide (t.oi_1h_normal ≤ dw.2.1)

/-- The signal strength analyzer.py `analyze_symbol` computes before
deciding whether to emit a Signal. -/
def analyze_strength (t : Thresholds) (df : List RawRow) (current : Option CurrentData) :
    String :=
  calculate_signal_strength (check_extreme_funding t (analyze_price_fr df current).2)
    (analyze_oi_surge t df) (analyze_price_fr df current).2 (calculate_oi_metrics t df).2.2.2

/-- analyzer.py `MarketAnalyzer.analyze_symbol`, given the loaded and
sanitized history `df` (the file I/O of `load_symbol_data` is external),
the optional live snapshot and the wall-clock instant `now`. -/
def analyze_symbol (t : Thresholds) (symbol : String) (df : List RawRow)
    (current : Option CurrentData) (now : ℕ) : Option Signal :=
  if df.length < t.oi_short_window then none
  else
    let pf := analyze_price_fr df current
    let price := pf.1
    let funding_rate := pf.2
    let m := calculate_oi_metrics t df
    let current_oi := m.1
    let short_ma := m.2.1
    let long_ma := m.2.2.1
    let oi_ratio := m.2.2.2
    let dw := calculate_oi_dual_window t df
    let strength := analyze_strength t df current
    if strength = "NONE" then none
    else
      let severity := calculate_severity t funding_rate oi_ratio dw.1 dw.2.1
      let price_change_pct0 : ℚ :=
        if 2 ≤ df.length then
          let prev := ((df.head?).map RawRow.priceV).getD 0
          if 0 < prev then (price - prev) / prev else 0
        else 0
      let oi_change_pct := if 0 < long_ma then (short_ma - long_ma) / long_ma else 0
      let price_change_pct :=
        match current with
        | some c =>
          match c.price_change_percent with
          | some v => v / 100
          | none => price_change_pct0
        | none => price_change_pct0
      let ta := determine_trend_and_advice price_change_pct oi_change_pct funding_rate
      some
        { symbol := symbol, timestamp := now, price := price, funding_rate := funding_rate,
          current_oi := current_oi, oi_short_ma := short_ma, oi_long_ma := long_ma,
          oi_ratio := oi_ratio,
          is_extreme_funding := check_extreme_funding t funding_rate,
          is_oi_surge := analyze_oi_surge t df,
          signal_strength := strength, severity := severity,
          price_change_pct := price_change_pct, oi_change_pct := oi_change_pct,
          trend := ta.1, advice := ta.2,
          oi_change_15m := dw.1, oi_change_1h := dw.2.1, oi_trigger := dw.2.2 }

/-- analyzer.py `MarketAnalyzer.apply_btc_veto`. -/
def apply_btc_veto (t : Thresholds) (signals : List Signal) (btc_change_pct : ℚ) :
    List Signal :=
  if t.btc_veto_enabled = false then signals
  else if ¬btc_change_pct < t.btc_veto_threshold then
    signals.map (fun s => { s with btc_change_pct := btc_change_pct })
  else
    signals.filterMap (fun s =>
      let s2 := { s with btc_change_pct := btc_change_pct, btc_veto := true }
      if s2.severity = "STRONG" then
        some { s2 with advice := "🛡️ 暂停交易 / 风险极高", trend := "⛈️ 大盘暴跌 (BTC预警)" }
      else none)

/-- Lookup in a python dict modelled as an association list
(first binding wins; the collector's dicts have unique keys). -/
def lookupA {α : Type} (m : List (String × α)) (k : String) : Option α :=
  (m.find? (fun p => p.1 == k)).map (fun p => p.2)

/-- What one attempt of `fetch_with_retry`'s loop runs into: an HTTP
response (with the optional Retry-After header), a network/proxy error
(`aiohttp.ClientError` family) or an `asyncio.TimeoutError`. -/
inductive Outcome where
  | resp (status : ℕ) (retry_after : Option ℕ)
  | netErr
  | timeoutErr
deriving DecidableEq

/-- How a call to `fetch_with_retry` ends: the parsed body of the attempt
that got HTTP 200, `None`, or the raised `IPBannedError`. -/
inductive FetchResult where
  | json (attempt : ℕ)
  | noData
  | bannedRaise
deriving DecidableEq

/-- Observable behaviour of one `fetch_with_retry` call: its result, the
ban flag `self._is_banned` afterwards, how many network requests it issued
and the sleeps it performed, in order. -/
structure FetchOut where
  result : FetchResult
  banned_after : Bool
  requests : ℕ
  sleeps : List ℕ
deriving DecidableEq

/-- The retry loop of data_collector.py `fetch_with_retry` (`for attempt in
range(self.max_retries)`), `fuel` being the attempts left: 200 returns the
body; 429 sleeps the Retry-After hint (default `rate_limit_wait`) and
retries; 418/403 set the ban flag and raise; other 4xx return None; any
other status falls through to the next attempt with no sleep; network and
timeout errors sleep `2 ** attempt` and retry.  A loop that exhausts its
attempts returns None. -/
def fetch_go (rlw : ℕ) (outs : ℕ → Outcome) : ℕ → ℕ → ℕ → List ℕ → FetchOut
  | 0, _, reqs, sleeps =>
    { result := .noData, banned_after := false, requests := reqs, sleeps := sleeps.reverse }
  | fuel + 1, attempt, reqs, sleeps =>
    match outs attempt with
    | .resp st ra =>
      if st = 200 then
        { result := .json attempt, banned_after := false, requests := reqs + 1,
          sleeps := sleeps.reverse }
      else if st = 429 then
        fetch_go rlw outs fuel (attempt + 1) (reqs + 1) (ra.getD rlw :: sleeps)
      else if st = 418 ∨ st = 403 then
        { result := .bannedRaise, banned_after := true, requests := reqs + 1,
          sleeps := sleeps.reverse }
      else if 400 ≤ st ∧ st < 500 then
        { result := .noData, banned_after := false, requests := reqs + 1,
          sleeps := sleeps.reverse }
      else fetch_go rlw outs fuel (attempt + 1) (reqs + 1) sleeps
    | .netErr => fetch_go rlw outs fuel (attempt + 1) (reqs + 1) (2 ^ attempt :: sleeps)
    | .timeoutErr => fetch_go rlw outs fuel (attempt + 1) (reqs + 1) (2 ^ attempt :: sleeps)

/-- data_collector.py `BinanceDataCollector.fetch_with_retry`: raises
`IPBannedError` before any request when `self._is_banned` is already set,
otherwise runs the retry loop over the transport transcript `outs`. -/
def fetch_with_retry (max_retries rlw : ℕ) (banned : Bool) (outs : ℕ → Outcome) : FetchOut :=
  if banned then { result := .bannedRaise, banned_after := true, requests := 0, sleeps := [] }
  else fetch_go rlw outs max_retries 0 0 []

/-- One symbol's 24h ticker entry as `get_24hr_tickers` parses it. -/
structure Ticker where
  open_p : ℚ := 0
  high_p : ℚ := 0
  low_p : ℚ := 0
  close_p : ℚ := 0
  volume : ℚ := 0
  last_price : ℚ := 0
  quote_volume : ℚ := 0
  price_change_percent : ℚ := 0
deriving DecidableEq

/-- The empty dict `tickers.get(symbol, {})` falls back to: every
`.get(key, 0)` read then yields 0. -/
def emptyTicker : Ticker := {}

/-- The per-symbol dict `collect_all_data` builds (its `symbol_data`). -/
structure SymbolData where
  open_p : ℚ
  high_p : ℚ
  low_p : ℚ
  close_p : ℚ
  price : ℚ
  volume : ℚ
  open_interest : ℚ
  funding_rate : ℚ
  quote_volume : ℚ
  price_change_percent : ℚ
deriving DecidableEq

/-- data_collector.py `BinanceDataCollector.filter_by_volume`: keep the
symbols whose 24h quote volume clears the threshold, and force BTCUSDT
back in when the universe had it (for the BTC veto). -/
def filter_by_volume (t : Thresholds) (symbols : List String)
    (tickers : List (String × Ticker)) : List String :=
  let filtered := symbols.filter (fun s =>
    match lookupA tickers s with
    | some tk => decide (t.min_volume_24h ≤ tk.quote_volume)
    | none => false)
  if ¬filtered.contains "BTCUSDT" ∧ symbols.contains "BTCUSDT" then filtered ++ ["BTCUSDT"]
  else filtered

/-- One iteration of the Step-6 join loop of `collect_all_data`: `none`
when the symbol is skipped (no fetched open interest, or non-positive
price/OI), otherwise the admitted `(symbol, symbol_data)` entry. -/
def collect_row (tickers : List (String × Ticker)) (funding ois : List (String × ℚ))
    (symbol : String) : Option (String × SymbolData) :=
  match lookupA ois symbol with
  | none => none
  | some oi =>
    let ticker := (lookupA tickers symbol).getD emptyTicker
    let price := ticker.last_price
    let fr := (lookupA funding symbol).getD 0
    if price ≤ 0 ∨ oi ≤ 0 then none
    else
      some (symbol,
        { open_p := ticker.open_p, high_p := ticker.high_p, low_p := ticker.low_p,
          close_p := price, price := price, volume := ticker.volume,
          open_interest := oi, funding_rate := fr, quote_volume := ticker.quote_volume,
          price_change_percent := ticker.price_change_percent })

/-- data_collector.py `BinanceDataCollector.collect_all_data`, Step 6: the
join of the fetched tickers, funding rates and open interests over the
volume-filtered symbols (the network fetches deliver the three maps; the
CSV append per admitted entry is the external sink). -/
def collect_all_data (filtered : List String) (tickers : List (String × Ticker))
    (funding ois : List (String × ℚ)) : List (String × SymbolData) :=
  filtered.filterMap (collect_row tickers funding ois)

/-- One entry of main.py's `self.alert_history`: when the symbol was last
dispatched (seconds) and at which severity. -/
structure AlertRecord where
  timestamp : ℚ
  severity : String
deriving DecidableEq

/-- main.py `ShortSqueezeMonitor.should_send_alert` for a signal on
`symbol` with `severity`, at wall-clock `now` (seconds): (send?, reason)
— the numeric suffixes the source formats into the reason strings are
presentation only and are not modelled. -/
def should_send_alert (cooldown_minutes : ℚ) (alert_history : List (String × AlertRecord))
    (symbol : String) (severity : String) (now : ℚ) : Bool × String :=
  match lookupA alert_history symbol with
  | none => (true, "🆕 新信号")
  | some last =>
    let time_since_last := (now - last.timestamp) / 60
    if cooldown_minutes ≤ time_since_last then (true, "⏰ 冷却已过")
    else if severity = "STRONG" ∧ last.severity = "NORMAL" then
      (true, "⬆️ 信号升级 (NORMAL → STRONG)")
    else (false, "🔇 冷却中")

/-- A NORMAL-severity Signal used as a concrete veto input. -/
def sigNormal : Signal :=
  { symbol := "AAAUSDT", timestamp := 0, price := 1, funding_rate := -1,
    current_oi := 100, oi_short_ma := 100, oi_long_ma := 100, oi_ratio := 1,
    is_extreme_funding := true, is_oi_surge := false, signal_strength := "WEAK",
    severity := "NORMAL", trend := "⚖️ 震荡整理 (方向不明)", advice := "⏳ 等待明确信号" }

/-- A STRONG-severity Signal used as a concrete veto input. -/
def sigStrong : Signal :=
  { symbol := "BBBUSDT", timestamp := 0, price := 2, funding_rate := -2,
    current_oi := 300, oi_short_ma := 300, oi_long_ma := 100, oi_ratio := 3,
    is_extreme_funding := true, is_oi_surge := true, signal_strength := "MODERATE",
    severity := "STRONG", trend := "🚀 轧空启动 (趋势点火)", advice := "🔫 市价做多 / 顺势进场" }

/-! Theorems. -/

/-- C3: `_calculate_severity` returns STRONG exactly when the funding rate
is at or beyond the strong threshold in either sign, the 15-minute OI
change reaches the strong 15m threshold, the 1-hour OI change reaches the
strong 1h threshold, or the OI ratio strictly exceeds the strong ratio
threshold; otherwise it returns NORMAL.  In particular a funding rate of
−0.0012 under the default strong threshold −0.0010 is STRONG for any
ratio and OI changes. -/
theorem c3_severity_strong_iff (t : Thresholds) (fr r c15 c1h : ℚ) :
    (calculate_severity t fr r c15 c1h = "STRONG" ↔
      fr ≤ t.strong_funding_threshold ∨ |t.strong_funding_threshold| ≤ fr ∨
        t.oi_15m_strong ≤ c15 ∨ t.oi_1h_strong ≤ c1h ∨ t.strong_oi_threshold < r) ∧
    (calculate_severity t fr r c15 c1h = "STRONG" ∨
      calculate_severity t fr r c15 c1h = "NORMAL") ∧
    (∀ r2 c152 c1h2 : ℚ,
      calculate_severity defaultThresholds (-(12/10000)) r2 c152 c1h2 = "STRONG") := by
  refine ⟨?_, ?_, ?_⟩
  · unfold calculate_severity
    split_ifs <;> simp_all
  · unfold calculate_severity
    split_ifs <;> simp
  · intro r2 c152 c1h2
    unfold calculate_severity
    rw [if_pos]
    show -(12/10000 : ℚ) ≤ defaultThresholds.strong_funding_rate
    norm_num [defaultThresholds]

/-- C4 counterexample: with both extremity flags set, funding −0.0012 and
oi_ratio 3.2, `calculate_signal_strength` yields MODERATE, not STRONG as
the spec's example asserts (|−0.0012| does not exceed the 0.003
hard-strong funding cutoff). -/
theorem c4_strength_example_refuted :
    calculate_signal_strength true true (-(12/10000)) (32/10) = "MODERATE" ∧
      ¬calculate_signal_strength true true (-(12/10000)) (32/10) = "STRONG" := by
  constructor <;>
    · simp [calculate_signal_strength]
      intro h
      rw [abs_of_nonneg (by norm_num : (0:ℚ) ≤ 12/10000)] at h
      norm_num at h

/-- C4 (amended): the four-way classification of
`calculate_signal_strength` — STRONG iff both flags and |funding| > 0.003
and ratio > 3; MODERATE iff both flags but not that conjunction; WEAK iff
exactly one flag; NONE iff neither — and `analyze_symbol` emits no Signal
when the computed strength is NONE.  The spec's concrete example
(funding −0.0012, ratio 3.2, both flags) lands in MODERATE, its funding
magnitude being below the hard-strong cutoff; raising the magnitude past
0.003 (e.g. −0.0035) does give STRONG. -/
theorem c4_strength_classification :
    (∀ (f s : Bool) (fr r : ℚ),
      (calculate_signal_strength f s fr r = "STRONG" ↔
        f = true ∧ s = true ∧ 3/1000 < |fr| ∧ 3 < r) ∧
      (calculate_signal_strength f s fr r = "MODERATE" ↔
        f = true ∧ s = true ∧ ¬(3/1000 < |fr| ∧ 3 < r)) ∧
      (calculate_signal_strength f s fr r = "WEAK" ↔
        (f = true ∧ s = false) ∨ (f = false ∧ s = true)) ∧
      (calculate_signal_strength f s fr r = "NONE" ↔ f = false ∧ s = false)) ∧
    (∀ (t : Thresholds) (sym : String) (df : List RawRow) (cur : Option CurrentData)
        (now : ℕ),
      analyze_strength t df cur = "NONE" → analyze_symbol t sym df cur now = none) ∧
    calculate_signal_strength true true (-(12/10000)) (32/10) = "MODERATE" ∧
    calculate_signal_strength true true (-(35/10000)) (32/10) = "STRONG" := by
  have hmod : calculate_signal_strength true true (-(12/10000)) (32/10) = "MODERATE" := by
    simp [calculate_signal_strength]
    intro h
    rw [abs_of_nonneg (by norm_num : (0:ℚ) ≤ 12/10000)] at h
    norm_num at h
  have hstr : calculate_signal_strength true true (-(35/10000)) (32/10) = "STRONG" := by
    simp [calculate_signal_strength]
    rw [abs_of_nonneg (by norm_num : (0:ℚ) ≤ 35/10000)]
    norm_num
  refine ⟨?_, ?_, hmod, hstr⟩
  · intro f s fr r
    by_cases hc : 3/1000 < |fr| ∧ 3 < r <;>
      cases f <;> cases s <;> simp [calculate_signal_strength, hc]
  · intro t sym df cur now h
    simp [analyze_symbol, h]

/-- C6: the alert governor's rules, in evaluation order: no prior send is
sent with the "new" reason; elapsed minutes at or past the cooldown is
sent with the cooldown-elapsed reason; a NORMAL→STRONG escalation inside
the cooldown is sent with the escalation reason; anything else is
suppressed with the cooling-down reason — and a symbol sent 10 minutes
before, under a 60-minute cooldown with unchanged severity, is
suppressed. -/
theorem c6_governor_rules (cd : ℚ) (hist : List (String × AlertRecord)) (sym sev : String)
    (now : ℚ) :
    (lookupA hist sym = none →
      should_send_alert cd hist sym sev now = (true, "🆕 新信号")) ∧
    (∀ last, lookupA hist sym = some last → cd ≤ (now - last.timestamp) / 60 →
      should_send_alert cd hist sym sev now = (true, "⏰ 冷却已过")) ∧
    (∀ last, lookupA hist sym = some last → ¬cd ≤ (now - last.timestamp) / 60 →
      sev = "STRONG" → last.severity = "NORMAL" →
      should_send_alert cd hist sym sev now = (true, "⬆️ 信号升级 (NORMAL → STRONG)")) ∧
    (∀ last, lookupA hist sym = some last → ¬cd ≤ (now - last.timestamp) / 60 →
      ¬(sev = "STRONG" ∧ last.severity = "NORMAL") →
      should_send_alert cd hist sym sev now = (false, "🔇 冷却中")) ∧
    should_send_alert 60 [("X", ⟨0, "NORMAL"⟩)] "X" "NORMAL" 600 = (false, "🔇 冷却中") := by
  have hconc : should_send_alert 60 [("X", ⟨0, "NORMAL"⟩)] "X" "NORMAL" 600 =
      (false, "🔇 冷却中") := by
    simp only [should_send_alert, lookupA, List.find?]
    norm_num
    simp
  refine ⟨?_, ?_, ?_, ?_, hconc⟩
  · intro hl
    simp [should_send_alert, hl]
  · intro last hl helapsed
    simp [should_send_alert, hl, helapsed]
  · intro last hl helapsed hsev hlast
    simp [should_send_alert, hl, helapsed, hsev, hlast]
  · intro last hl helapsed hesc
    simp only [should_send_alert, hl]
    rw [if_neg helapsed, if_neg hesc]

/-- C7: a loaded-and-sanitized history with fewer than `OI_SHORT_WINDOW`
rows (default 3) makes `analyze_symbol` return None: the symbol is
skipped, no Signal is produced. -/
theorem c7_insufficient_history (t : Thresholds) (sym : String) (df : List RawRow)
    (cur : Option CurrentData) (now : ℕ) (h : df.length < t.oi_short_window) :
    analyze_symbol t sym df cur now = none := by
  simp [analyze_symbol, h]

/-- C7 witness: the empty history under the default 3-row window. -/
theorem c7_insufficient_history_witness :
    analyze_symbol defaultThresholds "BTCUSDT" [] none 0 = none :=
  c7_insufficient_history defaultThresholds "BTCUSDT" [] none 0 (by decide)

/-- C2: ban handling of `fetch_with_retry`.  First, a call made while
`self._is_banned` is set raises `IPBannedError` at once, issuing no
network request.  Second, an attempt whose response status is 403 or 418
sets the ban flag and raises immediately: no further attempt, no further
sleep.  Third, composed: a first-attempt 403/418 makes the whole call
raise after exactly one request. -/
theorem c2_ban_handling :
    (∀ (mr rlw : ℕ) (outs : ℕ → Outcome),
      fetch_with_retry mr rlw true outs =
        { result := .bannedRaise, banned_after := true, requests := 0, sleeps := [] }) ∧
    (∀ (rlw : ℕ) (outs : ℕ → Outcome) (fuel attempt reqs : ℕ) (sleeps : List ℕ)
        (st : ℕ) (ra : Option ℕ),
      outs attempt = .resp st ra → st = 403 ∨ st = 418 →
      fetch_go rlw outs (fuel + 1) attempt reqs sleeps =
        { result := .bannedRaise, banned_after := true, requests := reqs + 1,
          sleeps := sleeps.reverse }) ∧
    (∀ (mr rlw : ℕ) (outs : ℕ → Outcome) (st : ℕ) (ra : Option ℕ),
      outs 0 = .resp st ra → st = 403 ∨ st = 418 → 0 < mr →
      fetch_with_retry mr rlw false outs =
        { result := .bannedRaise, banned_after := true, requests := 1, sleeps := [] }) := by
  have hgo : ∀ (rlw : ℕ) (outs : ℕ → Outcome) (fuel attempt reqs : ℕ) (sleeps : List ℕ)
      (st : ℕ) (ra : Option ℕ),
      outs attempt = .resp st ra → st = 403 ∨ st = 418 →
      fetch_go rlw outs (fuel + 1) attempt reqs sleeps =
        { result := .bannedRaise, banned_after := true, requests := reqs + 1,
          sleeps := sleeps.reverse } := by
    intro rlw outs fuel attempt reqs sleeps st ra hout hst
    rcases hst with rfl | rfl <;> simp [fetch_go, hout]
  refine ⟨fun mr rlw outs => by simp [fetch_with_retry], hgo, ?_⟩
  intro mr rlw outs st ra hout hst hmr
  obtain ⟨k, rfl⟩ : ∃ k, mr = k + 1 := ⟨mr - 1, by omega⟩
  rw [fetch_with_retry, if_neg (by simp)]
  simpa using hgo rlw outs k 0 0 [] st ra hout hst

/-- C9 counterexample: a transcript of nothing but HTTP 500 responses is
retried to the full budget and ends in None, but with an empty sleep
trace — the source retries 5xx immediately, with no base·2^attempt
backoff sleep (the claimed backoff would have slept [1, 2] between the
three attempts). -/
theorem c9_backoff_example_refuted :
    fetch_with_retry 3 5 false (fun _ => Outcome.resp 500 none) =
      { result := .noData, banned_after := false, requests := 3, sleeps := [] } ∧
    ¬(fetch_with_retry 3 5 false (fun _ => Outcome.resp 500 none)).sleeps = [1, 2] := by
  have h : fetch_with_retry 3 5 false (fun _ => Outcome.resp 500 none) =
      { result := .noData, banned_after := false, requests := 3, sleeps := [] } := by
    simp [fetch_with_retry, fetch_go]
  exact ⟨h, by rw [h]; simp⟩

/-- Helper: a run of `fuel` consecutive network/timeout failures sleeps
`2 ^ attempt` before each following attempt and ends returning None. -/
theorem fetch_go_net_run (rlw : ℕ) (outs : ℕ → Outcome) (fuel : ℕ) :
    ∀ (attempt reqs : ℕ) (sleeps : List ℕ),
      (∀ i, attempt ≤ i → i < attempt + fuel →
        outs i = Outcome.netErr ∨ outs i = Outcome.timeoutErr) →
      fetch_go rlw outs fuel attempt reqs sleeps =
        { result := .noData, banned_after := false, requests := reqs + fuel,
          sleeps := sleeps.reverse ++ (List.range' attempt fuel).map (2 ^ ·) } := by
  induction fuel with
  | zero => intro attempt reqs sleeps _; simp [fetch_go]
  | succ n ih =>
    intro attempt reqs sleeps h
    have hstep : fetch_go rlw outs (n + 1) attempt reqs sleeps =
        fetch_go rlw outs n (attempt + 1) (reqs + 1) (2 ^ attempt :: sleeps) := by
      rcases h attempt le_rfl (by omega) with h0 | h0 <;> simp [fetch_go, h0]
    rw [hstep, ih (attempt + 1) (reqs + 1) _ (fun i hi1 hi2 => h i (by omega) (by omega))]
    simp only [FetchOut.mk.injEq, List.reverse_cons, List.range'_succ, List.map_cons,
      List.append_assoc, List.singleton_append, true_and, and_true]
    all_goals omega

/-- Helper: a run of `fuel` consecutive 5xx responses is retried with no
sleep at all and ends returning None. -/
theorem fetch_go_5xx_run (rlw : ℕ) (outs : ℕ → Outcome) (fuel : ℕ) :
    ∀ (attempt reqs : ℕ) (sleeps : List ℕ),
      (∀ i, attempt ≤ i → i < attempt + fuel →
        ∃ st ra, outs i = Outcome.resp st ra ∧ 500 ≤ st) →
      fetch_go rlw outs fuel attempt reqs sleeps =
        { result := .noData, banned_after := false, requests := reqs + fuel,
          sleeps := sleeps.reverse } := by
  induction fuel with
  | zero => intro attempt reqs sleeps _; simp [fetch_go]
  | succ n ih =>
    intro attempt reqs sleeps h
    obtain ⟨st, ra, h0, h5⟩ := h attempt le_rfl (by omega)
    have hstep : fetch_go rlw outs (n + 1) attempt reqs sleeps =
        fetch_go rlw outs n (attempt + 1) (reqs + 1) sleeps := by
      simp only [fetch_go, h0]
      rw [if_neg (by omega), if_neg (by omega), if_neg (by omega), if_neg (by omega)]
    rw [hstep, ih (attempt + 1) (reqs + 1) _ (fun i hi1 hi2 => h i (by omega) (by omega))]
    simp only [FetchOut.mk.injEq, true_and, and_true]
    all_goals omega

/-- C9 (amended): transient failures are retried up to the max-retries
budget and then `fetch_with_retry` returns None rather than raising; the
base·2^attempt backoff sleep is performed for network and timeout errors
only — a 5xx response is retried immediately with no sleep. -/
theorem c9_transient_retry (mr rlw : ℕ) (outs : ℕ → Outcome) :
    ((∀ i, i < mr → outs i = Outcome.netErr ∨ outs i = Outcome.timeoutErr) →
      fetch_with_retry mr rlw false outs =
        { result := .noData, banned_after := false, requests := mr,
          sleeps := (List.range mr).map (2 ^ ·) }) ∧
    ((∀ i, i < mr → ∃ st ra, outs i = Outcome.resp st ra ∧ 500 ≤ st) →
      fetch_with_retry mr rlw false outs =
        { result := .noData, banned_after := false, requests := mr, sleeps := [] }) := by
  constructor
  · intro h
    rw [fetch_with_retry, if_neg (by simp),
      fetch_go_net_run rlw outs mr 0 0 [] (fun i hi1 hi2 => h i (by omega))]
    simp [List.range_eq_range']
  · intro h
    rw [fetch_with_retry, if_neg (by simp),
      fetch_go_5xx_run rlw outs mr 0 0 [] (fun i hi1 hi2 => h i (by omega))]
    simp

/-- Helper: an admitted join entry keeps its symbol and has positive price
and open interest (the `price <= 0 or oi <= 0` rows are skipped). -/
theorem collect_row_spec (tickers : List (String × Ticker)) (funding ois : List (String × ℚ))
    (sym : String) (p : String × SymbolData)
    (h : collect_row tickers funding ois sym = some p) :
    p.1 = sym ∧ 0 < p.2.price ∧ 0 < p.2.open_interest := by
  cases hlook : lookupA ois sym with
  | none => simp [collect_row, hlook] at h
  | some oi =>
    simp only [collect_row, hlook] at h
    split_ifs at h with hskip
    push_neg at hskip
    cases h
    exact ⟨rfl, hskip.1, hskip.2⟩

/-- Helper: membership of `dedup_last_by_timestamp`'s output in its input. -/
theorem dedup_last_subset : ∀ (l : List RawRow) (r : RawRow),
    r ∈ dedup_last_by_timestamp l → r ∈ l := by
  intro l
  induction l with
  | nil => intro r h; simp [dedup_last_by_timestamp] at h
  | cons a tl ih =>
    intro r h
    rw [dedup_last_by_timestamp] at h
    split_ifs at h with hdup
    · exact List.mem_cons_of_mem a (ih r h)
    · rcases List.mem_cons.mp h with rfl | h2
      · simp
      · exact List.mem_cons_of_mem a (ih r h2)

/-- C1: every symbol admitted by the collection join carries a strictly
positive price and open interest, and every row kept by the analyzer's
sanitization has strictly positive price and open-interest values:
violating entries are dropped, never returned. -/
theorem c1_admitted_positive :
    (∀ (filtered : List String) (tickers : List (String × Ticker))
        (funding ois : List (String × ℚ)) (s : String) (d : SymbolData),
      (s, d) ∈ collect_all_data filtered tickers funding ois →
      0 < d.price ∧ 0 < d.open_interest) ∧
    (∀ (rows : List RawRow) (r : RawRow), r ∈ sanitize_data rows →
      0 < r.priceV ∧ 0 < r.oiV) := by
  constructor
  · intro filtered tickers funding ois s d hmem
    rw [collect_all_data, List.mem_filterMap] at hmem
    obtain ⟨a, _, ha⟩ := hmem
    exact (collect_row_spec tickers funding ois a (s, d) ha).2
  · intro rows r hmem
    have hsub := dedup_last_subset _ r hmem
    rw [List.mem_filter] at hsub
    have hoi := hsub.2
    have hsub2 := hsub.1
    rw [List.mem_filter] at hsub2
    exact ⟨by simpa using hsub2.2, by simpa using hoi⟩

/-- Helper: association-list lookup on a cons cell. -/
theorem lookupA_cons {α : Type} (p : String × α) (l : List (String × α)) (k : String) :
    lookupA (p :: l) k = if p.1 == k then some p.2 else lookupA l k := by
  simp only [lookupA, List.find?]
  cases h : (p.1 == k) <;> simp [h]

/-- C10 counterexample: a symbol that passes the volume filter, has a
fetched open interest (0) and a positive price but no funding-rate entry
is NOT admitted by the join — a fetched but non-positive open interest is
discarded, so the claim fails without a positivity hypothesis on the
fetched open interest. -/
theorem c10_zero_oi_example_refuted :
    filter_by_volume defaultThresholds ["AUSDT"]
        [("AUSDT", { last_price := 1, quote_volume := 20000000 })] = ["AUSDT"] ∧
    collect_all_data ["AUSDT"] [("AUSDT", { last_price := 1, quote_volume := 20000000 })]
        [] [("AUSDT", 0)] = [] ∧
    lookupA (collect_all_data ["AUSDT"]
        [("AUSDT", { last_price := 1, quote_volume := 20000000 })] [] [("AUSDT", 0)])
      "AUSDT" = none := by
  have hrow : collect_row [("AUSDT", { last_price := 1, quote_volume := 20000000 })] []
      [("AUSDT", 0)] "AUSDT" = none := by
    simp only [collect_row, lookupA, List.find?]
    norm_num
  have hall : collect_all_data ["AUSDT"]
      [("AUSDT", { last_price := 1, quote_volume := 20000000 })] [] [("AUSDT", 0)] = [] := by
    simp [collect_all_data, hrow]
  refine ⟨?_, hall, by rw [hall]; rfl⟩
  simp only [filter_by_volume, lookupA, List.find?]
  norm_num [defaultThresholds]

/-- C10 (amended): a symbol that passes the volume filter, has a fetched
strictly positive open interest and a positive ticker price, but no entry
in the funding-rate mapping, is still admitted by `collect_all_data`,
with its Snapshot's funding_rate populated as 0 (missing funding data
does not discard the symbol, unlike missing open interest). -/
theorem c10_missing_funding_admitted (filtered : List String)
    (tickers : List (String × Ticker)) (funding ois : List (String × ℚ))
    (s : String) (tk : Ticker) (oi : ℚ)
    (hmem : s ∈ filtered) (hoi : lookupA ois s = some oi) (hoipos : 0 < oi)
    (htk : lookupA tickers s = some tk) (hprice : 0 < tk.last_price)
    (hfr : lookupA funding s = none) :
    ∃ d, lookupA (collect_all_data filtered tickers funding ois) s = some d ∧
      d.funding_rate = 0 ∧ d.open_interest = oi ∧ d.price = tk.last_price := by
  have hrow : collect_row tickers funding ois s =
      some (s,
        { open_p := tk.open_p, high_p := tk.high_p, low_p := tk.low_p,
          close_p := tk.last_price, price := tk.last_price, volume := tk.volume,
          open_interest := oi, funding_rate := 0, quote_volume := tk.quote_volume,
          price_change_percent := tk.price_change_percent }) := by
    simp only [collect_row, hoi, htk, hfr, Option.getD_some, Option.getD_none]
    rw [if_neg (by push_neg; exact ⟨hprice, hoipos⟩)]
  induction filtered with
  | nil => cases hmem
  | cons a rest ih =>
    rw [collect_all_data, List.filterMap_cons]
    by_cases has : a = s
    · subst has
      rw [hrow, lookupA_cons, if_pos (by simp)]
      exact ⟨_, rfl, rfl, rfl, rfl⟩
    · have hmem2 : s ∈ rest := by
        rcases List.mem_cons.mp hmem with h | h
        · exact absurd h.symm has
        · exact h
      cases hrowa : collect_row tickers funding ois a with
      | none => exact ih hmem2
      | some p =>
        have hfst := (collect_row_spec tickers funding ois a p hrowa).1
        rw [lookupA_cons, if_neg (by simp [hfst, has])]
        exact ih hmem2

/-- C10 witness: one symbol with positive price and OI 5 and an empty
funding map is admitted with funding_rate 0. -/
theorem c10_missing_funding_witness :
    (lookupA (collect_all_data ["AUSDT"]
        [("AUSDT", { last_price := 1, quote_volume := 20000000 })] [] [("AUSDT", 5)])
      "AUSDT").map SymbolData.funding_rate = some 0 := by
  obtain ⟨d, hd, hfr, -, -⟩ :=
    c10_missing_funding_admitted ["AUSDT"]
      [("AUSDT", { last_price := 1, quote_volume := 20000000 })] [] [("AUSDT", 5)]
      "AUSDT" { last_price := 1, quote_volume := 20000000 } 5
      (by simp) rfl (by norm_num) rfl (by norm_num) rfl
  rw [hd]
  simp [hfr]

/-- C5: the BTC veto (feature enabled).  When the reference change is
below the veto threshold, `apply_btc_veto` returns exactly the
STRONG-severity Signals of its input — every NORMAL-severity Signal is
dropped — and each returned Signal carries btc_veto and the risk-warning
trend/advice narrative plus the recorded reference change.  When the
change is not below the threshold, every Signal passes through unchanged
except for the recorded reference change. -/
theorem c5_btc_veto (t : Thresholds) (signals : List Signal) (btc : ℚ)
    (hen : t.btc_veto_enabled = true) :
    (btc < t.btc_veto_threshold →
      apply_btc_veto t signals btc =
        (signals.filter (fun s => s.severity == "STRONG")).map
          (fun s => { s with
            btc_change_pct := btc, btc_veto := true
            advice := "🛡️ 暂停交易 / 风险极高", trend := "⛈️ 大盘暴跌 (BTC预警)" })) ∧
    (¬btc < t.btc_veto_threshold →
      apply_btc_veto t signals btc =
        signals.map (fun s => { s with btc_change_pct := btc })) := by
  constructor
  · intro hdump
    rw [apply_btc_veto, if_neg (by simp [hen]), if_neg (not_not_intro hdump)]
    induction signals with
    | nil => rfl
    | cons a rest ih =>
      rw [List.filterMap_cons, List.filter_cons]
      by_cases hsev : a.severity = "STRONG"
      · simp [hsev, ih]
      · simp [hsev, ih]
  · intro hsafe
    rw [apply_btc_veto, if_neg (by simp [hen]), if_pos hsafe]

/-- C5 witness: reference change −0.02 under the default −0.01 threshold
with one NORMAL and one STRONG Signal yields exactly the STRONG one,
vetoed and rewritten; change +0.01 passes both through with the change
recorded. -/
theorem c5_btc_veto_witness :
    apply_btc_veto defaultThresholds [sigNormal, sigStrong] (-(2/100)) =
      [{ sigStrong with
        btc_change_pct := -(2/100), btc_veto := true
        advice := "🛡️ 暂停交易 / 风险极高", trend := "⛈️ 大盘暴跌 (BTC预警)" }] ∧
    apply_btc_veto defaultThresholds [sigNormal, sigStrong] (1/100) =
      [{ sigNormal with btc_change_pct := 1/100 },
        { sigStrong with btc_change_pct := 1/100 }] := by
  have h1 := c5_btc_veto defaultThresholds [sigNormal, sigStrong] (-(2/100)) rfl
  have h2 := c5_btc_veto defaultThresholds [sigNormal, sigStrong] (1/100) rfl
  constructor
  · rw [h1.1 (by norm_num [defaultThresholds])]
    rfl
  · rw [h2.2 (by norm_num [defaultThresholds])]
    rfl

/-- Helper: the duplicate-timestamp guard of the dedup pass holds exactly
when the timestamp occurs in the list. -/
theorem anyTs_iff (l : List RawRow) (t : ℕ) :
    (l.any fun s => s.timestamp == t) = true ↔ t ∈ l.map RawRow.timestamp := by
  simp [List.any_eq_true, List.mem_map]

/-- Helper: deduplication preserves the set of timestamps. -/
theorem dedup_map_ts (l : List RawRow) (t : ℕ) :
    t ∈ (dedup_last_by_timestamp l).map RawRow.timestamp ↔
      t ∈ l.map RawRow.timestamp := by
  induction l with
  | nil => simp [dedup_last_by_timestamp]
  | cons a tl ih =>
    rw [dedup_last_by_timestamp]
    split_ifs with hdup
    · have ha : a.timestamp ∈ tl.map RawRow.timestamp := (anyTs_iff tl a.timestamp).mp hdup
      rw [ih]
      simp only [List.map_cons, List.mem_cons]
      constructor
      · exact Or.inr
      · rintro (rfl | h)
        · exact ha
        · exact h
    · simp only [List.map_cons, List.mem_cons, ih]

/-- Helper: filtering out a timestamp that never occurs changes nothing. -/
theorem filter_ne_of_not_mem (l : List RawRow) (t : ℕ)
    (h : t ∉ l.map RawRow.timestamp) :
    l.filter (fun s => s.timestamp != t) = l := by
  rw [List.filter_eq_self]
  intro a ha
  simp only [bne_iff_ne, ne_eq]
  intro he
  exact h (List.mem_map.mpr ⟨a, ha, he⟩)

/-- Helper: filtering out one timestamp keeps every other timestamp's
occurrence status. -/
theorem mem_map_filter_ne (l : List RawRow) (t u : ℕ) (hne : u ≠ t) :
    u ∈ (l.filter (fun s => s.timestamp != t)).map RawRow.timestamp ↔
      u ∈ l.map RawRow.timestamp := by
  simp only [List.mem_map, List.mem_filter, bne_iff_ne, ne_eq]
  constructor
  · rintro ⟨x, ⟨hx, _⟩, he⟩
    exact ⟨x, hx, he⟩
  · rintro ⟨x, hx, he⟩
    exact ⟨x, ⟨hx, by rw [he]; exact hne⟩, he⟩

/-- Helper: when `t` occurs in `l`, deduplicating `l` yields exactly one
more row than deduplicating `l` with `t`'s rows removed. -/
theorem dedup_length_filter (t : ℕ) : ∀ l : List RawRow,
    t ∈ l.map RawRow.timestamp →
    (dedup_last_by_timestamp l).length =
      (dedup_last_by_timestamp (l.filter (fun s => s.timestamp != t))).length + 1 := by
  intro l
  induction l with
  | nil => intro h; simp at h
  | cons a tl ih =>
    intro hmem
    by_cases hat : a.timestamp = t
    · by_cases htl : t ∈ tl.map RawRow.timestamp
      · have hdup : (tl.any fun s => s.timestamp == a.timestamp) = true := by
          rw [anyTs_iff, hat]
          exact htl
        rw [dedup_last_by_timestamp, if_pos hdup,
          List.filter_cons_of_neg (by simp [hat]), ih htl]
      · have hdup : ¬(tl.any fun s => s.timestamp == a.timestamp) = true := by
          rw [anyTs_iff, hat]
          exact htl
        rw [dedup_last_by_timestamp, if_neg hdup,
          List.filter_cons_of_neg (by simp [hat]), filter_ne_of_not_mem tl t htl]
        simp
    · have htl : t ∈ tl.map RawRow.timestamp := by
        rw [List.map_cons, List.mem_cons] at hmem
        rcases hmem with h | h
        · exact absurd h.symm hat
        · exact h
      by_cases hdup : a.timestamp ∈ tl.map RawRow.timestamp
      · rw [dedup_last_by_timestamp, if_pos ((anyTs_iff _ _).mpr hdup),
          List.filter_cons_of_pos (by simp [hat]), dedup_last_by_timestamp,
          if_pos ((anyTs_iff _ _).mpr ((mem_map_filter_ne tl t a.timestamp hat).mpr hdup)),
          ih htl]
      · rw [dedup_last_by_timestamp, if_neg (fun hc => hdup ((anyTs_iff _ _).mp hc)),
          List.filter_cons_of_pos (by simp [hat]), dedup_last_by_timestamp,
          if_neg
            (fun hc => hdup ((mem_map_filter_ne tl t a.timestamp hat).mp
              ((anyTs_iff _ _).mp hc)))]
        simp [ih htl]

/-- Helper: deduplicating after appending one row keeps that row last and
drops every earlier row with its timestamp. -/
theorem dedup_append_single (r : RawRow) : ∀ l : List RawRow,
    dedup_last_by_timestamp (l ++ [r]) =
      dedup_last_by_timestamp (l.filter (fun s => s.timestamp != r.timestamp)) ++ [r] := by
  intro l
  induction l with
  | nil => simp [dedup_last_by_timestamp]
  | cons a tl ih =>
    rw [List.cons_append]
    by_cases hat : a.timestamp = r.timestamp
    · have hdup : ((tl ++ [r]).any fun s => s.timestamp == a.timestamp) = true := by
        rw [anyTs_iff]
        simp [hat]
      rw [dedup_last_by_timestamp, if_pos hdup, List.filter_cons_of_neg (by simp [hat])]
      exact ih
    · have hq : ((tl ++ [r]).any fun s => s.timestamp == a.timestamp) =
          (tl.any fun s => s.timestamp == a.timestamp) := by
        have hr : (r.timestamp == a.timestamp) = false := by
          simp only [beq_eq_false_iff_ne, ne_eq]
          exact fun hc => hat hc.symm
        rw [List.any_append]
        simp [hr]
      have hq2 : ((tl.filter fun s => s.timestamp != r.timestamp).any
            fun s => s.timestamp == a.timestamp) =
          (tl.any fun s => s.timestamp == a.timestamp) := by
        rw [Bool.eq_iff_iff, anyTs_iff, anyTs_iff]
        exact mem_map_filter_ne tl r.timestamp a.timestamp hat
      rw [dedup_last_by_timestamp, hq, List.filter_cons_of_pos (by simp [hat]),
        dedup_last_by_timestamp, hq2, ih]
      by_cases hd : (tl.any fun s => s.timestamp == a.timestamp) = true
      · rw [if_pos hd, if_pos hd]
      · rw [if_neg hd, if_neg hd, List.cons_append]

/-- Helper: after removing a timestamp and deduplicating, a lookup of that
timestamp finds nothing. -/
theorem dedup_filter_find_none (l : List RawRow) (t : ℕ) :
    (dedup_last_by_timestamp (l.filter (fun s => s.timestamp != t))).find?
      (fun s => s.timestamp == t) = none := by
  rw [List.find?_eq_none]
  intro x hx
  have hmem := dedup_last_subset _ x hx
  rw [List.mem_filter] at hmem
  have := hmem.2
  simp only [bne_iff_ne, ne_eq] at this
  simp [this]

/-- Helper: appending a row whose timestamp is already present leaves the
deduplicated length unchanged, and a timestamp lookup now finds the new
row. -/
theorem dedup_last_write (F : List RawRow) (r : RawRow)
    (hmemF : r.timestamp ∈ F.map RawRow.timestamp) :
    (dedup_last_by_timestamp (F ++ [r])).length = (dedup_last_by_timestamp F).length ∧
    (dedup_last_by_timestamp (F ++ [r])).find? (fun s => s.timestamp == r.timestamp) =
      some r := by
  constructor
  · rw [dedup_append_single, List.length_append, List.length_singleton]
    have hl := dedup_length_filter r.timestamp F hmemF
    omega
  · rw [dedup_append_single, List.find?_append, dedup_filter_find_none]
    simp

/-- C8: re-ingesting a Snapshot row whose timestamp the sanitized store
already holds overwrites rather than duplicates: the sanitized store's
size is unchanged, and the lookup of that timestamp yields the newly
written row (last write wins).  The appended row is a valid Snapshot
(complete, positive price and open interest), as the Store invariant
guarantees. -/
theorem c8_last_write_wins (rows : List RawRow) (r : RawRow)
    (hc : rowComplete r = true) (hp : 0 < r.priceV) (ho : 0 < r.oiV)
    (hmem : r.timestamp ∈ (sanitize_data rows).map RawRow.timestamp) :
    (sanitize_data (rows ++ [r])).length = (sanitize_data rows).length ∧
    (sanitize_data (rows ++ [r])).find? (fun s => s.timestamp == r.timestamp) = some r := by
  have hF : (((rows ++ [r]).filter rowComplete).filter
        (fun x => decide (0 < x.priceV))).filter (fun x => decide (0 < x.oiV)) =
      (((rows.filter rowComplete).filter
        (fun x => decide (0 < x.priceV))).filter (fun x => decide (0 < x.oiV))) ++ [r] := by
    simp [List.filter_append, hc, hp, ho]
  have hmemF : r.timestamp ∈
      ((((rows.filter rowComplete).filter
        (fun x => decide (0 < x.priceV))).filter (fun x => decide (0 < x.oiV))).map
        RawRow.timestamp) := by
    rw [sanitize_data] at hmem
    exact (dedup_map_ts _ _).mp hmem
  have hkey := dedup_last_write _ r hmemF
  rw [sanitize_data, sanitize_data, hF]
  exact hkey

/-- C8 witness: a one-row store re-ingesting its timestamp 1 with a newer
row keeps size 1 and returns the newer row on lookup. -/
theorem c8_last_write_wins_witness :
    (sanitize_data ([⟨1, some 10, some 100, some 0⟩] ++
        [⟨1, some 11, some 120, some 0⟩])).length =
      (sanitize_data [⟨1, some 10, some 100, some 0⟩]).length ∧
    (sanitize_data ([⟨1, some 10, some 100, some 0⟩] ++
        [⟨1, some 11, some 120, some 0⟩])).find?
        (fun s => s.timestamp == (⟨1, some 11, some 120, some 0⟩ : RawRow).timestamp) =
      some ⟨1, some 11, some 120, some 0⟩ :=
  c8_last_write_wins [⟨1, some 10, some 100, some 0⟩] ⟨1, some 11, some 120, some 0⟩
    (by decide) (by norm_num [RawRow.priceV]) (by norm_num [RawRow.oiV])
    (by norm_num [sanitize_data, dedup_last_by_timestamp, RawRow.priceV, RawRow.oiV,
      rowComplete])

end LiquidityHunt
